import Mathlib

/-!
# RequestMany (api.go): scatter-gather collection of replies

A shallow embedding of `System.RequestMany` and of its option functions.

* The transport (`nats.Conn`) is the environment.  What it answers to `Subscribe` and
  `PublishRequest` is the data of a `Conn`; what the function asks of it is recorded in
  `Outcome.calls`.
* The `for { select { ... } }` loop is `selectLoop`.  It consumes the list of cases that
  the successive `select` statements take (`SelectCase`); which case a `select` takes is
  decided by the Go runtime, so that list belongs to the environment as well.
* `schedule` is the timed environment: from the instants at which replies are delivered it
  computes the cases the runtime offers, following the two timers of the source
  (`intervalTimer`, armed at creation and reset by the subscription callback, and
  `time.After(reqOpts.maxWait)`, evaluated anew by every `select`).  Instants are integers
  (nanoseconds since the call started) and the code itself takes no time.
-/

namespace Sys

/-! ## Data model -/

/-- Go's `time.Duration`: a signed number of nanoseconds. -/
abbrev Duration := Int

def Millisecond : Duration := 1000000

def Second : Duration := 1000 * Millisecond

/-- `DefaultRequestTimeout = 10 * time.Second`. -/
def DefaultRequestTimeout : Duration := 10 * Second

/-- A reply (`*nats.Msg`).  `Status` is the value of `msg.Header.Get("Status")`, the only
header the collector reads; `Data` is the payload. -/
structure Msg where
  Status : String
  Data : List Nat
  deriving DecidableEq, Repr

/-- Error values returned by `RequestMany`.  `text` is an error made elsewhere and passed
through unchanged (the error of an option function or of `PublishRequest`);
`requestFailed subject cause` is
`fmt.Errorf("server request on subject %q failed: %s", subject, err)`, where `err` is the
variable assigned by `conn.Subscribe` (`none` when it is nil). -/
inductive Error where
  | text (e : String)
  | requestFailed (subject : String) (cause : Option String)
  deriving DecidableEq, Repr

/-- The struct `requestManyOpts`. -/
structure requestManyOpts where
  maxWait : Duration
  maxInterval : Duration
  count : Int
  deriving DecidableEq, Repr

/-- The type `RequestManyOpt func(*requestManyOpts) error`: the options after the call,
and the error returned. -/
abbrev RequestManyOpt := requestManyOpts → requestManyOpts × Option Error

def WithRequestManyMaxWait (maxWait : Duration) : RequestManyOpt :=
  fun opts => ({ opts with maxWait := maxWait }, none)

def WithRequestManyMaxInterval (interval : Duration) : RequestManyOpt :=
  fun opts => ({ opts with maxInterval := interval }, none)

def WithRequestManyCount (count : Int) : RequestManyOpt :=
  fun opts => ({ opts with count := count }, none)

/-- The value `reqOpts` is initialised with at the top of `RequestMany`. -/
def defaultOpts : requestManyOpts :=
  { maxWait := DefaultRequestTimeout, maxInterval := 300 * Millisecond, count := -1 }

/-- The loop `for _, opt := range opts { if err := opt(reqOpts); err != nil { return nil, err } }`. -/
def applyOpts : requestManyOpts → List RequestManyOpt → Except Error requestManyOpts
  | reqOpts, [] => .ok reqOpts
  | reqOpts, opt :: rest =>
    match opt reqOpts with
    | (_, some err) => .error err
    | (reqOpts, none) => applyOpts reqOpts rest

/-! ## The collection loop -/

/-- The case a `select` statement of the loop takes: a receive from `msgsChan`, a receive
from `intervalTimer.C`, or a receive from `time.After(reqOpts.maxWait)`. -/
inductive SelectCase where
  | recv (msg : Msg)
  | intervalTimer
  | after
  deriving DecidableEq, Repr

/-- What the loop returns: the two results of `RequestMany`, and the number of `select`
statements executed (`rounds`, an observation added by the model). -/
structure Return where
  replies : List Msg
  err : Option Error
  rounds : Nat
  deriving DecidableEq, Repr

/-- The loop `for { select { ... } }` of `RequestMany`.  `res` is the slice built so far,
`k` the number of `select` statements already executed, `err` the variable assigned by
`conn.Subscribe`.  `none`: the cases given are used up and the loop is still waiting. -/
def selectLoop (reqOpts : requestManyOpts) (subject : String) (err : Option String) :
    List Msg → Nat → List SelectCase → Option Return
  | _, _, [] => none
  | res, k, .recv msg :: cases =>
    if msg.Status = "503" then
      some ⟨[], some (.requestFailed subject err), k + 1⟩
    else
      let res := res ++ [msg]
      if reqOpts.count ≠ -1 ∧ (res.length : Int) = reqOpts.count then
        some ⟨res, none, k + 1⟩
      else
        selectLoop reqOpts subject err res (k + 1) cases
  | res, k, .intervalTimer :: _ => some ⟨res, none, k + 1⟩
  | res, k, .after :: _ => some ⟨res, none, k + 1⟩

/-! ## The transport and the whole call -/

/-- The connection as `RequestMany` sees it: the subject `nats.NewInbox()` returns, the
error `conn.Subscribe` returns and the error `conn.PublishRequest` returns (`none` is a
nil error). -/
structure Conn where
  inbox : String
  subscribeErr : Option String
  publishErr : Option String
  deriving DecidableEq, Repr

/-- A call made on the transport.  The receiver of `Unsubscribe` is the subscription on
the given subject, or the nil subscription (`none`). -/
inductive Call where
  | Subscribe (subject : String)
  | PublishRequest (subject reply : String) (data : List Nat)
  | Unsubscribe (sub : Option String)
  deriving DecidableEq, Repr

/-- The results of one call of `RequestMany` (`replies`, `err`; a nil slice and an empty
slice are both `[]`), the calls it made on the transport in order, and the number of
`select` statements it executed. -/
structure Outcome where
  replies : List Msg
  err : Option Error
  calls : List Call
  rounds : Nat
  deriving DecidableEq, Repr

/-- The value of the variable `sub` after `sub, err := conn.Subscribe(inbox, ...)`. -/
def subOf (conn : Conn) : Option String :=
  if conn.subscribeErr.isNone then some conn.inbox else none

/-- The calls made on the transport by a call of `RequestMany` that gets as far as
`conn.Subscribe`: `conn.Subscribe(inbox, ...)`, then `conn.PublishRequest(subject, inbox,
data)`, and on return the deferred `sub.Unsubscribe()`. -/
def callsOf (conn : Conn) (subject : String) (data : List Nat) : List Call :=
  [.Subscribe conn.inbox, .PublishRequest subject conn.inbox data, .Unsubscribe (subOf conn)]

/-- The function `(s *System) RequestMany(subject, data, opts...)`.  The error of
`conn.Subscribe` is stored in `err` and not tested; `defer sub.Unsubscribe()` runs last on
every return that follows it. -/
def RequestMany (conn : Conn) (subject : String) (data : List Nat)
    (opts : List RequestManyOpt) (cases : List SelectCase) : Option Outcome :=
  match applyOpts defaultOpts opts with
  | .error e => some ⟨[], some e, [], 0⟩
  | .ok reqOpts =>
    let err := conn.subscribeErr
    match conn.publishErr with
    | some e => some ⟨[], some (.text e), callsOf conn subject data, 0⟩
    | none =>
      (selectLoop reqOpts subject err [] 0 cases).map fun r =>
        ⟨r.replies, r.err, callsOf conn subject data, r.rounds⟩

/-! ## The timed environment -/

/-- A reply delivered to the subscription callback, `delay` nanoseconds after the
previous delivery (after the start of the call for the first one). -/
structure Arrival where
  delay : Nat
  msg : Msg
  deriving DecidableEq, Repr

/-- The timer case that fires when no reply comes first: the earlier of the two timers
(both cases have the same body, `return res, nil`). -/
def timerCase (intervalAt deadlineAt : Nat) : Nat × SelectCase :=
  if deadlineAt < intervalAt then (deadlineAt, .after) else (intervalAt, .intervalTimer)

/-- The cases the successive `select` statements take, each with its instant.
`now` is the instant at which the current `select` starts to wait, `intervalAt` the
instant at which `intervalTimer` expires.  `time.After(reqOpts.maxWait)` is evaluated by
the `select` itself, so its timer expires at `now + maxWait`.  A reply delivered at `t`
makes the callback run `intervalTimer.Reset(reqOpts.maxInterval)` and send the reply on
`msgsChan`; the loop, which is waiting, receives it at `t` (the channel never fills up).
The first of the three events decides the case.  When a reply is delivered at the very
instant the earlier timer expires the order of the two is not fixed by the program:
`tie t = true` lets the reply come first, `tie t = false` the timer.  A duration that is
not positive expires at once.  The list ends with the first timer case, on which the loop
returns. -/
def schedule (reqOpts : requestManyOpts) (tie : Nat → Bool) :
    Nat → Nat → List Arrival → List (Nat × SelectCase)
  | now, intervalAt, [] => [timerCase intervalAt (now + reqOpts.maxWait.toNat)]
  | now, intervalAt, a :: rest =>
    let t := now + a.delay
    let deadlineAt := now + reqOpts.maxWait.toNat
    let expiry := min intervalAt deadlineAt
    if expiry < t ∨ (expiry = t ∧ tie t = false) then
      [timerCase intervalAt deadlineAt]
    else
      (t, .recv a.msg) :: schedule reqOpts tie t (t + reqOpts.maxInterval.toNat) rest

/-- The instant of the `rounds`-th case of a schedule; the start of the call for 0. -/
def instantOf (sched : List (Nat × SelectCase)) : Nat → Nat
  | 0 => 0
  | k + 1 => ((sched.get? k).map Prod.fst).getD 0

/-- The options in force in the loop. -/
def effectiveOpts (opts : List RequestManyOpt) : requestManyOpts :=
  match applyOpts defaultOpts opts with
  | .ok reqOpts => reqOpts
  | .error _ => defaultOpts

/-- The schedule of one call: `intervalTimer` is created at the start of the call, when
the loop is entered as well; replies are delivered only if `conn.Subscribe` succeeded. -/
def timeline (conn : Conn) (opts : List RequestManyOpt) (tie : Nat → Bool)
    (arrivals : List Arrival) : List (Nat × SelectCase) :=
  let reqOpts := effectiveOpts opts
  let delivered := if conn.subscribeErr.isNone then arrivals else []
  schedule reqOpts tie 0 reqOpts.maxInterval.toNat delivered

/-- One call of `RequestMany` in the timed environment: its outcome and the instant at
which it returns. -/
def RequestManyAt (conn : Conn) (subject : String) (data : List Nat)
    (opts : List RequestManyOpt) (tie : Nat → Bool) (arrivals : List Arrival) :
    Option (Outcome × Nat) :=
  let sched := timeline conn opts tie arrivals
  (RequestMany conn subject data opts (sched.map Prod.snd)).map fun out =>
    (out, instantOf sched out.rounds)

/-! ## Vocabulary of the statements -/

/-- An option made by one of the three constructors of the package. -/
inductive Given where
  | maxWait (d : Duration)
  | maxInterval (d : Duration)
  | count (n : Int)
  deriving DecidableEq, Repr

/-- The option function a `Given` stands for. -/
def Given.opt : Given → RequestManyOpt
  | .maxWait d => WithRequestManyMaxWait d
  | .maxInterval d => WithRequestManyMaxInterval d
  | .count n => WithRequestManyCount n

def Given.maxWait? : Given → Option Duration
  | .maxWait d => some d
  | _ => none

def Given.maxInterval? : Given → Option Duration
  | .maxInterval d => some d
  | _ => none

def Given.count? : Given → Option Int
  | .count n => some n
  | _ => none

/-- The instant of the last reply among the given cases; `last` when there is none. -/
def lastDrainAt : Nat → List (Nat × SelectCase) → Nat
  | last, [] => last
  | _, (t, .recv _) :: rest => lastDrainAt t rest
  | last, _ :: rest => lastDrainAt last rest

/-- The cases in which the given replies are received one after the other, with their
instants, the first one `delay` after `now`. -/
def stamp : Nat → List Arrival → List (Nat × SelectCase)
  | _, [] => []
  | now, a :: rest => (now + a.delay, .recv a.msg) :: stamp (now + a.delay) rest

/-- The replies among a list of cases, in order. -/
def recvMsgs : List SelectCase → List Msg
  | [] => []
  | .recv msg :: cases => msg :: recvMsgs cases
  | _ :: cases => recvMsgs cases

/-- The replies drained by a call that executed `rounds` statements `select`. -/
def drained (cases : List SelectCase) (rounds : Nat) : List Msg :=
  recvMsgs (cases.take rounds)

/-! ## Lemmas -/

/-- Replies without status 503 that do not bring `res` to `count` are appended one by
one. -/
theorem selectLoop_recv_append (o : requestManyOpts) (s : String) (e : Option String) :
    ∀ (msgs res : List Msg) (k : Nat) (rest : List SelectCase),
      (∀ m ∈ msgs, m.Status ≠ "503") →
      (∀ j, 1 ≤ j → j ≤ msgs.length → ((res.length + j : Nat) : Int) ≠ o.count) →
      selectLoop o s e res k (msgs.map .recv ++ rest)
        = selectLoop o s e (res ++ msgs) (k + msgs.length) rest := by
  intro msgs
  induction msgs with
  | nil => intro res k rest _ _; simp
  | cons m ms ih =>
    intro res k rest h503 hcnt
    have hm : m.Status ≠ "503" := h503 m (List.mem_cons_self _ _)
    have h1 : ((res.length + 1 : Nat) : Int) ≠ o.count := hcnt 1 le_rfl (by simp)
    have hstep : selectLoop o s e res k (SelectCase.recv m :: (ms.map .recv ++ rest))
        = selectLoop o s e (res ++ [m]) (k + 1) (ms.map .recv ++ rest) := by
      rw [selectLoop]
      simp only [hm, if_false]
      have : ¬ (o.count ≠ -1 ∧ (((res ++ [m]).length : Nat) : Int) = o.count) := by
        rintro ⟨_, h⟩
        apply h1
        simpa using h
      simp only [this, if_false]
    rw [List.map_cons, List.cons_append, hstep, ih (res ++ [m]) (k + 1) rest
      (fun x hx => h503 x (List.mem_cons_of_mem _ hx))]
    · simp [Nat.add_comm, Nat.add_left_comm]
    · intro j hj1 hj2
      have := hcnt (j + 1) (by omega) (by simp; omega)
      simpa [Nat.add_assoc, Nat.add_comm 1 j] using this

/-- The loop returns at the `n`-th reply when `count = n ≥ 1` and `res` starts empty. -/
theorem selectLoop_count_reached (o : requestManyOpts) (s : String) (e : Option String)
    (n : Nat) (msgs : List Msg) (rest : List SelectCase)
    (hcount : o.count = n) (hn : 1 ≤ n) (hlen : msgs.length = n)
    (h503 : ∀ m ∈ msgs, m.Status ≠ "503") :
    selectLoop o s e [] 0 (msgs.map .recv ++ rest) = some ⟨msgs, none, n⟩ := by
  obtain ⟨init, last, rfl⟩ : ∃ init last, msgs = init ++ [last] := by
    rcases List.eq_nil_or_concat msgs with h | ⟨init, last, h⟩
    · subst h; simp at hlen; omega
    · exact ⟨init, last, by simpa using h⟩
  have hlen' : init.length + 1 = n := by simpa using hlen
  have hlast : last.Status ≠ "503" := h503 last (by simp)
  rw [List.map_append, List.append_assoc, selectLoop_recv_append o s e init [] 0 _
    (fun m hm => h503 m (by simp [hm]))]
  · simp only [List.map_cons, List.map_nil, List.cons_append, List.nil_append]
    rw [selectLoop]
    have hc1 : o.count ≠ -1 := by rw [hcount]; omega
    have hc2 : ((init.length : Int) + 1) = o.count := by rw [hcount, ← hlen']; simp
    simp [hlast, hc1, hc2, hlen', hcount.symm]
  · intro j _ hj
    rw [hcount]
    simp only [List.length_nil, Nat.zero_add]
    omega

/-- The loop returns the error at a reply with status 503 that it reaches. -/
theorem selectLoop_status_503 (o : requestManyOpts) (s : String) (e : Option String)
    (pre : List Msg) (m : Msg) (rest : List SelectCase)
    (hpre : ∀ x ∈ pre, x.Status ≠ "503")
    (hcnt : ∀ j : Nat, 1 ≤ j → j ≤ pre.length → (j : Int) ≠ o.count)
    (hm : m.Status = "503") :
    selectLoop o s e [] 0 (pre.map .recv ++ .recv m :: rest)
      = some ⟨[], some (.requestFailed s e), pre.length + 1⟩ := by
  rw [selectLoop_recv_append o s e pre [] 0 _ hpre (by
    intro j h1 h2
    simpa using hcnt j h1 h2)]
  rw [selectLoop]
  simp [hm]

theorem recvMsgs_take_initial :∀ (cases : List SelectCase) (j : Nat),
    recvMsgs (cases.take j) <+: recvMsgs cases := by
  intro cases
  induction cases with
  | nil => intro j; simp [recvMsgs]
  | cons c cs ih =>
    intro j
    cases j with
    | zero => simp [recvMsgs]
    | succ j =>
      cases c with
      | recv m =>
        simp only [List.take_succ_cons, recvMsgs]
        exact (List.prefix_cons_inj m).2 (ih j)
      | intervalTimer => simpa only [List.take_succ_cons, recvMsgs] using ih j
      | after => simpa only [List.take_succ_cons, recvMsgs] using ih j

/-- What a returning loop has done: it executed `j ≥ 1` more statements `select`, and
either it returns a nil error and `res` followed by the replies drained, none with status
503, or it drained a reply with status 503 and returns the error and no reply. -/
theorem selectLoop_spec (o : requestManyOpts) (s : String) (e : Option String) :
    ∀ (cases : List SelectCase) (res : List Msg) (k : Nat) (r : Return),
      selectLoop o s e res k cases = some r →
      ∃ j, 1 ≤ j ∧ j ≤ cases.length ∧ r.rounds = k + j ∧
        ((r.err = none ∧ r.replies = res ++ recvMsgs (cases.take j) ∧
            ∀ m ∈ recvMsgs (cases.take j), m.Status ≠ "503") ∨
          (r.err = some (.requestFailed s e) ∧ r.replies = [] ∧
            ∃ m ∈ recvMsgs (cases.take j), m.Status = "503")) := by
  intro cases
  induction cases with
  | nil => intro res k r h; simp [selectLoop] at h
  | cons c cs ih =>
    intro res k r h
    cases c with
    | recv m =>
      rw [selectLoop] at h
      by_cases hm : m.Status = "503"
      · simp only [hm, if_true, Option.some.injEq] at h
        subst h
        exact ⟨1, le_rfl, by simp, rfl, Or.inr ⟨rfl, rfl, m, by simp [recvMsgs], hm⟩⟩
      · simp only [hm, if_false] at h
        by_cases hc : o.count ≠ -1 ∧ (((res ++ [m]).length : Nat) : Int) = o.count
        · rw [if_pos hc, Option.some.injEq] at h
          subst h
          refine ⟨1, le_rfl, by simp, rfl, Or.inl ⟨rfl, by simp [recvMsgs], ?_⟩⟩
          intro x hx
          simp [recvMsgs] at hx
          subst hx
          exact hm
        · rw [if_neg hc] at h
          obtain ⟨j, hj1, hj2, hr, hcase⟩ := ih (res ++ [m]) (k + 1) r h
          refine ⟨j + 1, by omega, by simp; omega, by omega, ?_⟩
          rcases hcase with ⟨h1, h2, h3⟩ | ⟨h1, h2, x, hx, hx503⟩
          · refine Or.inl ⟨h1, by simp [recvMsgs, h2], ?_⟩
            intro x hx
            simp only [List.take_succ_cons, recvMsgs, List.mem_cons] at hx
            rcases hx with rfl | hx
            · exact hm
            · exact h3 x hx
          · exact Or.inr ⟨h1, h2, x, by simp [recvMsgs, hx], hx503⟩
    | intervalTimer =>
      simp only [selectLoop, Option.some.injEq] at h
      subst h
      exact ⟨1, le_rfl, by simp, rfl, Or.inl ⟨rfl, by simp [recvMsgs], by simp [recvMsgs]⟩⟩
    | after =>
      simp only [selectLoop, Option.some.injEq] at h
      subst h
      exact ⟨1, le_rfl, by simp, rfl, Or.inl ⟨rfl, by simp [recvMsgs], by simp [recvMsgs]⟩⟩

/-- A returning call either stopped before the loop, with an error and no reply, or
returns what its loop returns. -/
theorem RequestMany_cases (conn : Conn) (subject : String) (data : List Nat)
    (opts : List RequestManyOpt) (cases : List SelectCase) (out : Outcome)
    (h : RequestMany conn subject data opts cases = some out) :
    (out.rounds = 0 ∧ out.replies = [] ∧ out.err ≠ none) ∨
      (∃ reqOpts, applyOpts defaultOpts opts = .ok reqOpts ∧ conn.publishErr = none ∧
        out.calls = callsOf conn subject data ∧
        selectLoop reqOpts subject conn.subscribeErr [] 0 cases
          = some ⟨out.replies, out.err, out.rounds⟩) := by
  unfold RequestMany at h
  cases hopts : applyOpts defaultOpts opts with
  | error e =>
    simp only [hopts, Option.some.injEq] at h
    subst h
    exact Or.inl ⟨rfl, rfl, by simp⟩
  | ok reqOpts =>
    simp only [hopts] at h
    cases hpub : conn.publishErr with
    | some e =>
      simp only [hpub, Option.some.injEq] at h
      subst h
      exact Or.inl ⟨rfl, rfl, by simp⟩
    | none =>
      simp only [hpub, Option.map_eq_some'] at h
      obtain ⟨r, hr, rfl⟩ := h
      exact Or.inr ⟨reqOpts, rfl, rfl, rfl, hr⟩

theorem applyOpts_given : ∀ (gs : List Given) (o : requestManyOpts),
    applyOpts o (gs.map Given.opt)
      = .ok ⟨((gs.filterMap Given.maxWait?).getLast?).getD o.maxWait,
          ((gs.filterMap Given.maxInterval?).getLast?).getD o.maxInterval,
          ((gs.filterMap Given.count?).getLast?).getD o.count⟩ := by
  intro gs
  induction gs with
  | nil => intro o; simp [applyOpts]
  | cons g gs ih =>
    intro o
    cases g with
    | maxWait d =>
      simp [applyOpts, Given.opt, WithRequestManyMaxWait, ih, Given.maxWait?,
        Given.maxInterval?, Given.count?, List.getLast?_cons]
    | maxInterval d =>
      simp [applyOpts, Given.opt, WithRequestManyMaxInterval, ih, Given.maxWait?,
        Given.maxInterval?, Given.count?, List.getLast?_cons]
    | count n =>
      simp [applyOpts, Given.opt, WithRequestManyCount, ih, Given.maxWait?,
        Given.maxInterval?, Given.count?, List.getLast?_cons]

theorem timerCase_snd (intervalAt deadlineAt : Nat) :
    (timerCase intervalAt deadlineAt).2 = .intervalTimer ∨
      (timerCase intervalAt deadlineAt).2 = .after := by
  unfold timerCase
  split <;> simp

theorem timerCase_fst (intervalAt deadlineAt : Nat) :
    (timerCase intervalAt deadlineAt).1 = min intervalAt deadlineAt := by
  unfold timerCase
  split <;> simp <;> omega

/-- A loop that takes a timer case returns what it has. -/
theorem selectLoop_timer (o : requestManyOpts) (s : String) (e : Option String)
    (res : List Msg) (k : Nat) (c : SelectCase) (cases : List SelectCase)
    (hc : c = .intervalTimer ∨ c = .after) :
    selectLoop o s e res k (c :: cases) = some ⟨res, none, k + 1⟩ := by
  rcases hc with rfl | rfl <;> simp [selectLoop]

/-- On the cases of a schedule the loop returns: the schedule ends with a timer. -/
theorem selectLoop_schedule_returns (o : requestManyOpts) (s : String) (e : Option String)
    (o' : requestManyOpts) (tie : Nat → Bool) :
    ∀ (arrivals : List Arrival) (now intervalAt : Nat) (res : List Msg) (k : Nat),
      ∃ r, selectLoop o s e res k ((schedule o' tie now intervalAt arrivals).map Prod.snd)
        = some r := by
  intro arrivals
  induction arrivals with
  | nil =>
    intro now intervalAt res k
    exact ⟨_, by simpa [schedule] using selectLoop_timer o s e res k _ [] (timerCase_snd _ _)⟩
  | cons a rest ih =>
    intro now intervalAt res k
    rw [schedule]
    split
    · exact ⟨_, by simpa using selectLoop_timer o s e res k _ [] (timerCase_snd _ _)⟩
    · simp only [List.map_cons]
      rw [selectLoop]
      by_cases hm : a.msg.Status = "503"
      · simp [hm]
      · simp only [hm, if_false]
        split
        · exact ⟨_, rfl⟩
        · exact ih _ _ _ _

/-- In the timed environment every call returns. -/
theorem RequestManyAt_returns (conn : Conn) (subject : String) (data : List Nat)
    (opts : List RequestManyOpt) (tie : Nat → Bool) (arrivals : List Arrival) :
    ∃ out t, RequestManyAt conn subject data opts tie arrivals = some (out, t) := by
  unfold RequestManyAt RequestMany
  cases hopts : applyOpts defaultOpts opts with
  | error e => exact ⟨_, _, rfl⟩
  | ok reqOpts =>
    cases hpub : conn.publishErr with
    | some e => exact ⟨_, _, rfl⟩
    | none =>
      obtain ⟨r, hr⟩ := selectLoop_schedule_returns reqOpts subject conn.subscribeErr
        (effectiveOpts opts) tie (if conn.subscribeErr.isNone then arrivals else []) 0
        (effectiveOpts opts).maxInterval.toNat [] 0
      simp only [timeline]
      rw [hr]
      exact ⟨_, _, rfl⟩

/-- The outcome of a timed call is the outcome of `RequestMany` on the cases of its
timeline, and the instant is the one of the last case taken. -/
theorem RequestManyAt_eq (conn : Conn) (subject : String) (data : List Nat)
    (opts : List RequestManyOpt) (tie : Nat → Bool) (arrivals : List Arrival)
    (out : Outcome) (t : Nat)
    (h : RequestManyAt conn subject data opts tie arrivals = some (out, t)) :
    RequestMany conn subject data opts ((timeline conn opts tie arrivals).map Prod.snd)
        = some out ∧
      t = instantOf (timeline conn opts tie arrivals) out.rounds := by
  unfold RequestManyAt at h
  simp only [Option.map_eq_some', Prod.mk.injEq] at h
  obtain ⟨out', h1, rfl, rfl⟩ := h
  exact ⟨h1, rfl⟩

/-- With `count = n ≥ 1` and fewer than `n` replies in `res`, the loop returns at most
`n` replies. -/
theorem selectLoop_length_le (o : requestManyOpts) (s : String) (e : Option String)
    (n : Nat) (hcount : o.count = n) :
    ∀ (cases : List SelectCase) (res : List Msg) (k : Nat) (r : Return),
      res.length < n → selectLoop o s e res k cases = some r → r.replies.length ≤ n := by
  intro cases
  induction cases with
  | nil => intro res k r _ h; simp [selectLoop] at h
  | cons c cs ih =>
    intro res k r hres h
    cases c with
    | recv m =>
      rw [selectLoop] at h
      by_cases hm : m.Status = "503"
      · simp only [hm, if_true, Option.some.injEq] at h
        subst h
        simp
      · simp only [hm, if_false] at h
        by_cases hc : o.count ≠ -1 ∧ (((res ++ [m]).length : Nat) : Int) = o.count
        · rw [if_pos hc, Option.some.injEq] at h
          subst h
          simp only [List.length_append, List.length_singleton]
          omega
        · rw [if_neg hc] at h
          refine ih (res ++ [m]) (k + 1) r ?_ h
          have hne : ((res ++ [m]).length : Int) ≠ (n : Int) := by
            intro heq
            exact hc ⟨by rw [hcount]; omega, by rw [hcount]; exact heq⟩
          simp only [List.length_append, List.length_singleton] at hne ⊢
          omega
    | intervalTimer =>
      simp only [selectLoop, Option.some.injEq] at h
      subst h
      exact hres.le
    | after =>
      simp only [selectLoop, Option.some.injEq] at h
      subst h
      exact hres.le

/-- The replies received in a schedule are the first replies delivered. -/
theorem recvMsgs_schedule_initial (o : requestManyOpts) (tie : Nat → Bool) :
    ∀ (arrivals : List Arrival) (now intervalAt : Nat),
      recvMsgs ((schedule o tie now intervalAt arrivals).map Prod.snd)
        <+: arrivals.map Arrival.msg := by
  intro arrivals
  induction arrivals with
  | nil =>
    intro now intervalAt
    rcases timerCase_snd intervalAt (now + o.maxWait.toNat) with h | h <;>
      simp [schedule, h, recvMsgs]
  | cons a rest ih =>
    intro now intervalAt
    rw [schedule]
    split
    · rcases timerCase_snd intervalAt (now + o.maxWait.toNat) with h | h <;>
        simp [h, recvMsgs]
    · simp only [List.map_cons, recvMsgs]
      exact (List.prefix_cons_inj a.msg).2 (ih _ _)

theorem recvMsgs_timeline_initial (conn : Conn) (opts : List RequestManyOpt)
    (tie : Nat → Bool) (arrivals : List Arrival) :
    recvMsgs ((timeline conn opts tie arrivals).map Prod.snd) <+: arrivals.map Arrival.msg := by
  unfold timeline
  by_cases h : conn.subscribeErr.isNone = true
  · simp only [h, if_true]
    exact recvMsgs_schedule_initial _ _ _ _ _
  · simp only [h]
    have h0 := recvMsgs_schedule_initial (effectiveOpts opts) tie [] 0
      (effectiveOpts opts).maxInterval.toNat
    simp only [List.map_nil] at h0
    simpa using h0.trans List.nil_prefix

theorem lastDrainAt_timer (last : Nat) (c : Nat × SelectCase)
    (rest : List (Nat × SelectCase)) (hc : c.2 = .intervalTimer ∨ c.2 = .after) :
    lastDrainAt last (c :: rest) = lastDrainAt last rest := by
  obtain ⟨t, c⟩ := c
  rcases hc with h | h <;> simp only at h <;> subst h <;> simp [lastDrainAt]

theorem lastDrainAt_of_no_recv : ∀ (sched : List (Nat × SelectCase)) (last : Nat),
    recvMsgs (sched.map Prod.snd) = [] → lastDrainAt last sched = last := by
  intro sched
  induction sched with
  | nil => intro last _; rfl
  | cons c cs ih =>
    intro last h
    obtain ⟨t, c⟩ := c
    cases c with
    | recv m => simp [recvMsgs] at h
    | intervalTimer => simpa [lastDrainAt] using ih last (by simpa [recvMsgs] using h)
    | after => simpa [lastDrainAt] using ih last (by simpa [recvMsgs] using h)

/-- Every case of a schedule comes at most `maxWait` after the reply received before it
(after `now` when there is none). -/
theorem schedule_instant_le (o : requestManyOpts) (tie : Nat → Bool) :
    ∀ (arrivals : List Arrival) (now intervalAt j : Nat), 1 ≤ j →
      j ≤ (schedule o tie now intervalAt arrivals).length →
      instantOf (schedule o tie now intervalAt arrivals) j
        ≤ lastDrainAt now ((schedule o tie now intervalAt arrivals).take j)
          + o.maxWait.toNat := by
  have timer : ∀ (now intervalAt j : Nat), 1 ≤ j →
      j ≤ [timerCase intervalAt (now + o.maxWait.toNat)].length →
      instantOf [timerCase intervalAt (now + o.maxWait.toNat)] j
        ≤ lastDrainAt now ([timerCase intervalAt (now + o.maxWait.toNat)].take j)
          + o.maxWait.toNat := by
    intro now intervalAt j hj1 hj2
    have hj : j = 1 := by simp at hj2; omega
    subst hj
    rw [List.take_one, List.head?_cons, Option.toList_some,
      lastDrainAt_timer _ _ _ (timerCase_snd _ _)]
    simp only [instantOf, List.get?_cons_zero, Option.map_some', Option.getD_some,
      timerCase_fst, lastDrainAt]
    omega
  intro arrivals
  induction arrivals with
  | nil =>
    intro now intervalAt j hj1 hj2
    rw [schedule] at hj2 ⊢
    exact timer now intervalAt j hj1 hj2
  | cons a rest ih =>
    intro now intervalAt j hj1 hj2
    rw [schedule] at hj2 ⊢
    split at hj2
    · rename_i hcond
      rw [if_pos hcond]
      exact timer now intervalAt j hj1 hj2
    · rename_i hcond
      rw [if_neg hcond]
      obtain ⟨i, rfl⟩ : ∃ i, j = i + 1 := ⟨j - 1, by omega⟩
      cases i with
      | zero => simp [instantOf, lastDrainAt]
      | succ i =>
        have hlen : i + 1 ≤ (schedule o tie (now + a.delay)
            (now + a.delay + o.maxInterval.toNat) rest).length := by
          simpa using hj2
        have := ih (now + a.delay) (now + a.delay + o.maxInterval.toNat) (i + 1)
          (by omega) hlen
        simpa [instantOf, lastDrainAt] using this

theorem stamp_length : ∀ (pre : List Arrival) (now : Nat), (stamp now pre).length = pre.length := by
  intro pre
  induction pre with
  | nil => intro now; rfl
  | cons a pre ih => intro now; simp [stamp, ih]

theorem stamp_map_snd : ∀ (pre : List Arrival) (now : Nat),
    (stamp now pre).map Prod.snd = (pre.map Arrival.msg).map SelectCase.recv := by
  intro pre
  induction pre with
  | nil => intro now; rfl
  | cons a pre ih => intro now; simp [stamp, ih]

/-- Replies that each come before both timers expire are received one after the other,
and the timers are armed again at each of them. -/
theorem schedule_stamp (o : requestManyOpts) (tie : Nat → Bool) (post : List Arrival) :
    ∀ (pre : List Arrival) (now : Nat),
      (∀ a ∈ pre, a.delay < o.maxInterval.toNat ∧ a.delay < o.maxWait.toNat) →
      schedule o tie now (now + o.maxInterval.toNat) (pre ++ post)
        = stamp now pre ++
          schedule o tie (now + (pre.map Arrival.delay).sum)
            (now + (pre.map Arrival.delay).sum + o.maxInterval.toNat) post := by
  intro pre
  induction pre with
  | nil => intro now _; simp [stamp]
  | cons a pre ih =>
    intro now h
    obtain ⟨h1, h2⟩ := h a (List.mem_cons_self _ _)
    have hcond : ¬ (min (now + o.maxInterval.toNat) (now + o.maxWait.toNat) < now + a.delay ∨
        (min (now + o.maxInterval.toNat) (now + o.maxWait.toNat) = now + a.delay ∧
          tie (now + a.delay) = false)) := by
      rintro (h | ⟨h, _⟩) <;> omega
    rw [List.cons_append, schedule, if_neg hcond,
      ih (now + a.delay) (fun x hx => h x (List.mem_cons_of_mem _ hx))]
    simp [stamp, Nat.add_assoc]

/-- The last of the replies received one after the other comes at the sum of the delays. -/
theorem instantOf_stamp (rest : List (Nat × SelectCase)) :
    ∀ (pre : List Arrival) (now : Nat), pre ≠ [] →
      instantOf (stamp now pre ++ rest) pre.length = now + (pre.map Arrival.delay).sum := by
  intro pre
  induction pre with
  | nil => intro now h; exact absurd rfl h
  | cons a pre ih =>
    intro now _
    cases pre with
    | nil => simp [stamp, instantOf]
    | cons b pre =>
      have := ih (now + a.delay) (by simp)
      simp only [List.length_cons, instantOf, stamp, List.cons_append, List.get?_cons_succ,
        List.map_cons, List.sum_cons] at this ⊢
      rw [this]
      omega

/-- At a silent gap the interval timer is the next case. -/
theorem schedule_gap (o : requestManyOpts) (tie : Nat → Bool) (now : Nat)
    (post : List Arrival) (hIW : o.maxInterval.toNat ≤ o.maxWait.toNat)
    (hgap : ∀ a rest, post = a :: rest →
      o.maxInterval.toNat ≤ a.delay ∧
        (a.delay = o.maxInterval.toNat → tie (now + a.delay) = false)) :
    schedule o tie now (now + o.maxInterval.toNat) post
      = [(now + o.maxInterval.toNat, .intervalTimer)] := by
  have htimer : timerCase (now + o.maxInterval.toNat) (now + o.maxWait.toNat)
      = (now + o.maxInterval.toNat, .intervalTimer) := by
    unfold timerCase
    rw [if_neg (by omega)]
  cases post with
  | nil => rw [schedule, htimer]
  | cons a rest =>
    obtain ⟨h1, h2⟩ := hgap a rest rfl
    have hcond : min (now + o.maxInterval.toNat) (now + o.maxWait.toNat) < now + a.delay ∨
        (min (now + o.maxInterval.toNat) (now + o.maxWait.toNat) = now + a.delay ∧
          tie (now + a.delay) = false) := by
      rcases Nat.lt_or_eq_of_le h1 with h | h
      · exact Or.inl (by omega)
      · exact Or.inr ⟨by omega, h2 h.symm⟩
    rw [schedule, if_pos hcond, htimer]

/-! ## The claims -/

/-- C1. With `count = n ≥ 1` in force and `PublishRequest` succeeding: when the first `n`
cases the loop takes are replies without status 503, `RequestMany` returns a nil error and
exactly these `n` replies in order, at its `n`-th `select`, whatever would follow (more
replies, a timer, or nothing at all).  In the timed environment: when each of the first
`n` replies is delivered before the two timers then running expire, the call returns
these replies at the instant the `n`-th is delivered.  With `count = 3`, the default
`maxInterval = 300ms` and `maxWait = 10s`, and replies at 10ms, 20ms and 30ms, the call
returns the three replies in that order at 30ms. -/
theorem RequestMany_expected_count_reached :
    (∀ (conn : Conn) (subject : String) (data : List Nat) (opts : List RequestManyOpt)
        (reqOpts : requestManyOpts) (n : Nat) (msgs : List Msg) (rest : List SelectCase),
        applyOpts defaultOpts opts = .ok reqOpts → reqOpts.count = n → 1 ≤ n →
        conn.publishErr = none →
        msgs.length = n → (∀ m ∈ msgs, m.Status ≠ "503") →
        RequestMany conn subject data opts (msgs.map .recv ++ rest)
          = some ⟨msgs, none, callsOf conn subject data, n⟩) ∧
    (∀ (conn : Conn) (subject : String) (data : List Nat) (opts : List RequestManyOpt)
        (reqOpts : requestManyOpts) (n : Nat) (tie : Nat → Bool)
        (first more : List Arrival),
        applyOpts defaultOpts opts = .ok reqOpts → reqOpts.count = n → 1 ≤ n →
        conn.subscribeErr = none → conn.publishErr = none →
        first.length = n → (∀ a ∈ first, a.msg.Status ≠ "503") →
        (∀ a ∈ first,
          (a.delay : Int) < reqOpts.maxInterval ∧ (a.delay : Int) < reqOpts.maxWait) →
        RequestManyAt conn subject data opts tie (first ++ more)
          = some (⟨first.map Arrival.msg, none, callsOf conn subject data, n⟩,
              (first.map Arrival.delay).sum)) ∧
    (∀ (conn : Conn) (subject : String) (data : List Nat) (tie : Nat → Bool)
        (m₁ m₂ m₃ : Msg),
        conn.subscribeErr = none → conn.publishErr = none →
        m₁.Status ≠ "503" → m₂.Status ≠ "503" → m₃.Status ≠ "503" →
        RequestManyAt conn subject data [WithRequestManyCount 3] tie
            [⟨10000000, m₁⟩, ⟨10000000, m₂⟩, ⟨10000000, m₃⟩]
          = some (⟨[m₁, m₂, m₃], none, callsOf conn subject data, 3⟩, 30000000)) := by
  constructor
  · intro conn subject data opts reqOpts n msgs rest hopts hcount hn hpub hlen h503
    unfold RequestMany
    simp only [hopts, hpub]
    rw [selectLoop_count_reached reqOpts subject conn.subscribeErr n msgs rest hcount hn hlen h503]
    rfl
  constructor
  · intro conn subject data opts reqOpts n tie first more hopts hcount hn hsub hpub hlen
      h503 hearly
    have hne : first ≠ [] := by
      intro h
      rw [h] at hlen
      simp at hlen
      omega
    have hsched := schedule_stamp reqOpts tie more first 0 (fun a ha => by
      have h1 : (a.delay : Int) < (reqOpts.maxInterval : Int) := (hearly a ha).1
      have h2 : (a.delay : Int) < (reqOpts.maxWait : Int) := (hearly a ha).2
      exact ⟨Int.lt_toNat.2 h1, Int.lt_toNat.2 h2⟩)
    simp only [Nat.zero_add] at hsched
    have hloop := selectLoop_count_reached reqOpts subject conn.subscribeErr n
      (first.map Arrival.msg)
      ((schedule reqOpts tie (first.map Arrival.delay).sum
        ((first.map Arrival.delay).sum + reqOpts.maxInterval.toNat) more).map Prod.snd)
      hcount hn (by simpa using hlen) (by simpa using h503)
    have hinst := instantOf_stamp
      (schedule reqOpts tie (first.map Arrival.delay).sum
        ((first.map Arrival.delay).sum + reqOpts.maxInterval.toNat) more) first 0 hne
    rw [hlen, Nat.zero_add] at hinst
    rw [hsub] at hloop
    simp only [RequestManyAt, timeline, effectiveOpts, hopts, hsub, Option.isNone_none,
      if_true, hsched, RequestMany, hpub, List.map_append, stamp_map_snd, hloop,
      Option.map_some', hinst]
  · intro conn subject data tie m₁ m₂ m₃ hsub hpub h₁ h₂ h₃
    simp [RequestManyAt, timeline, RequestMany, effectiveOpts, applyOpts, WithRequestManyCount,
      defaultOpts, DefaultRequestTimeout, Second, Millisecond, schedule, timerCase,
      selectLoop, instantOf, callsOf, hsub, hpub, h₁, h₂, h₃]

/-- C2. A reply with the `Status` header `"503"` that the loop drains makes `RequestMany`
return no reply and a non-nil error (the `fmt.Errorf` value built from `subject` and the
variable `err`), whatever replies were appended before it, and the 503 reply is not in
the result.  First: when `PublishRequest` succeeds and the loop takes the replies `pre`
(none with status 503, not reaching `count`) and then a reply with status 503, the call
returns, at that `select`, the empty list and the error.  Second, in the timed
environment: when these replies are each delivered before the two timers then running
expire, the call returns the empty list and the error at the instant the 503 reply is
delivered.  Third: every returning call that drained a reply with status 503 returns the
empty list and the error.  Fourth: in the timed environment every call returns. -/
theorem RequestMany_status_503 (conn : Conn) (subject : String) (data : List Nat)
    (opts : List RequestManyOpt) (reqOpts : requestManyOpts)
    (hopts : applyOpts defaultOpts opts = .ok reqOpts) (hpub : conn.publishErr = none) :
    (∀ (pre : List Msg) (m : Msg) (rest : List SelectCase),
      (∀ x ∈ pre, x.Status ≠ "503") →
      (∀ j : Nat, 1 ≤ j → j ≤ pre.length → (j : Int) ≠ reqOpts.count) →
      m.Status = "503" →
      RequestMany conn subject data opts (pre.map .recv ++ .recv m :: rest)
        = some ⟨[], some (.requestFailed subject conn.subscribeErr),
            callsOf conn subject data, pre.length + 1⟩) ∧
    (∀ (tie : Nat → Bool) (pre : List Arrival) (a : Arrival) (more : List Arrival),
      conn.subscribeErr = none →
      (∀ x ∈ pre, x.msg.Status ≠ "503") →
      (∀ j : Nat, 1 ≤ j → j ≤ pre.length → (j : Int) ≠ reqOpts.count) →
      a.msg.Status = "503" →
      (∀ x ∈ pre ++ [a],
        (x.delay : Int) < reqOpts.maxInterval ∧ (x.delay : Int) < reqOpts.maxWait) →
      RequestManyAt conn subject data opts tie (pre ++ a :: more)
        = some (⟨[], some (.requestFailed subject none), callsOf conn subject data,
              pre.length + 1⟩,
            (pre.map Arrival.delay).sum + a.delay)) ∧
    (∀ (cases : List SelectCase) (out : Outcome),
      RequestMany conn subject data opts cases = some out →
      (∃ m ∈ drained cases out.rounds, m.Status = "503") →
      out.replies = [] ∧ out.err = some (.requestFailed subject conn.subscribeErr) ∧
        out.err ≠ none) ∧
    (∀ (tie : Nat → Bool) (arrivals : List Arrival),
      ∃ out t, RequestManyAt conn subject data opts tie arrivals = some (out, t)) := by
  refine ⟨?_, ?_, ?_, RequestManyAt_returns conn subject data opts⟩
  · intro pre m rest hpre hcnt hm
    unfold RequestMany
    simp only [hopts, hpub]
    rw [selectLoop_status_503 reqOpts subject conn.subscribeErr pre m rest hpre hcnt hm]
    rfl
  · intro tie pre a more hsub hpre hcnt ha hearly
    have hsched := schedule_stamp reqOpts tie more (pre ++ [a]) 0 (fun x hx => by
      have h1 : (x.delay : Int) < (reqOpts.maxInterval : Int) := (hearly x hx).1
      have h2 : (x.delay : Int) < (reqOpts.maxWait : Int) := (hearly x hx).2
      exact ⟨Int.lt_toNat.2 h1, Int.lt_toNat.2 h2⟩)
    simp only [Nat.zero_add, List.append_assoc, List.singleton_append] at hsched
    have hloop := selectLoop_status_503 reqOpts subject none (pre.map Arrival.msg) a.msg
      ((schedule reqOpts tie ((pre ++ [a]).map Arrival.delay).sum
        (((pre ++ [a]).map Arrival.delay).sum + reqOpts.maxInterval.toNat) more).map Prod.snd)
      (by simpa using hpre) (by simpa using hcnt) ha
    have hinst := instantOf_stamp
      (schedule reqOpts tie ((pre ++ [a]).map Arrival.delay).sum
        (((pre ++ [a]).map Arrival.delay).sum + reqOpts.maxInterval.toNat) more)
      (pre ++ [a]) 0 (by simp)
    simp only [Nat.zero_add, List.length_append, List.length_singleton] at hinst
    simp only [List.length_map] at hloop
    simp only [List.map_append, List.map_cons, List.map_nil, List.sum_append, List.sum_cons,
      List.sum_nil, Nat.add_zero] at hsched hinst hloop
    simp only [RequestManyAt, timeline, effectiveOpts, hopts, hsub, Option.isNone_none,
      if_true, hsched, RequestMany, hpub, List.map_append, stamp_map_snd, List.map_cons,
      List.map_nil, List.append_assoc, List.singleton_append, hloop, Option.map_some',
      hinst, List.sum_append, List.sum_cons, List.sum_nil, Nat.add_zero]
  · intro cases out hret h503
    rcases RequestMany_cases conn subject data opts cases out hret with
      ⟨h0, _, _⟩ | ⟨o, _, _, _, hloop⟩
    · obtain ⟨m, hm, _⟩ := h503
      simp [drained, h0, recvMsgs] at hm
    · obtain ⟨j, _, _, hr, hcase⟩ := selectLoop_spec o subject conn.subscribeErr cases [] 0 _ hloop
      simp only [Nat.zero_add] at hr
      rcases hcase with ⟨_, _, h3⟩ | ⟨h1, h2, _⟩
      · obtain ⟨m, hm, hm503⟩ := h503
        rw [drained, hr] at hm
        exact absurd hm503 (h3 m hm)
      · simp only at h1 h2
        exact ⟨h2, h1, by simp [h1]⟩

/-- C2, at a concrete run: `count = 5`, two replies are appended, the third has status
503, and the call returns no reply and the error at its third `select`. -/
theorem RequestMany_status_503_witness :
    RequestMany ⟨"_INBOX.a", none, none⟩ "$SYS.REQ.SERVER.PING.VARZ" []
        [WithRequestManyCount 5]
        ([⟨"", [1]⟩, ⟨"", [2]⟩].map .recv ++ .recv ⟨"503", []⟩ :: [.intervalTimer])
      = some ⟨[], some (.requestFailed "$SYS.REQ.SERVER.PING.VARZ" none),
          callsOf ⟨"_INBOX.a", none, none⟩ "$SYS.REQ.SERVER.PING.VARZ" [], 3⟩ :=
  (RequestMany_status_503 ⟨"_INBOX.a", none, none⟩ "$SYS.REQ.SERVER.PING.VARZ" []
    [WithRequestManyCount 5] ⟨DefaultRequestTimeout, 300 * Millisecond, 5⟩ rfl rfl).1
    [⟨"", [1]⟩, ⟨"", [2]⟩] ⟨"503", []⟩ [.intervalTimer] (by decide)
    (by
      intro j h1 h2
      show (j : Int) ≠ 5
      simp only [List.length_cons, List.length_nil] at h2
      omega) rfl

/-- C1, at a concrete run: `count = 2`, two replies, then a third reply and a timer that
are never looked at. -/
theorem RequestMany_expected_count_reached_witness :
    RequestMany ⟨"_INBOX.a", none, none⟩ "s" [] [WithRequestManyCount 2]
        ([⟨"", [1]⟩, ⟨"", [2]⟩].map .recv ++ [.recv ⟨"", [3]⟩, .after])
      = some ⟨[⟨"", [1]⟩, ⟨"", [2]⟩], none, callsOf ⟨"_INBOX.a", none, none⟩ "s" [], 2⟩ :=
  RequestMany_expected_count_reached.1 ⟨"_INBOX.a", none, none⟩ "s" []
    [WithRequestManyCount 2] ⟨DefaultRequestTimeout, 300 * Millisecond, 2⟩ 2
    [⟨"", [1]⟩, ⟨"", [2]⟩] [.recv ⟨"", [3]⟩, .after] rfl rfl (by decide) rfl rfl (by decide)

/-- C8. With no option the loop of `RequestMany` runs with `maxWait = 10s`,
`maxInterval = 300ms` and `count = -1`.  Each of `WithRequestManyMaxWait`,
`WithRequestManyMaxInterval` and `WithRequestManyCount` sets its own field to the value
given, keeps the two other fields and returns a nil error.  For every list of such
options, applying them to the defaults succeeds, and each field ends as the value of the
last option of its kind in the list, or as its default when there is none. -/
theorem requestManyOpts_defaults_and_overrides :
    applyOpts defaultOpts [] = .ok ⟨10000000000, 300000000, -1⟩ ∧
    (∀ (d : Duration) (o : requestManyOpts),
      WithRequestManyMaxWait d o = (⟨d, o.maxInterval, o.count⟩, none)) ∧
    (∀ (d : Duration) (o : requestManyOpts),
      WithRequestManyMaxInterval d o = (⟨o.maxWait, d, o.count⟩, none)) ∧
    (∀ (n : Int) (o : requestManyOpts),
      WithRequestManyCount n o = (⟨o.maxWait, o.maxInterval, n⟩, none)) ∧
    (∀ gs : List Given,
      applyOpts defaultOpts (gs.map Given.opt)
        = .ok ⟨((gs.filterMap Given.maxWait?).getLast?).getD 10000000000,
            ((gs.filterMap Given.maxInterval?).getLast?).getD 300000000,
            ((gs.filterMap Given.count?).getLast?).getD (-1)⟩) := by
  refine ⟨rfl, fun _ _ => rfl, fun _ _ => rfl, fun _ _ => rfl, ?_⟩
  intro gs
  rw [applyOpts_given gs defaultOpts]
  rfl

/-- C6. A call of `RequestMany` that subscribed to its inbox (the options were accepted
and `conn.Subscribe` succeeded) makes, when it returns, exactly three calls on the
transport: `Subscribe` on the inbox, `PublishRequest`, and last `Unsubscribe` on that
subscription, which is thus unsubscribed exactly once, whatever made the call return.  In
the timed environment such a call always returns. -/
theorem RequestMany_unsubscribes_once (conn : Conn) (subject : String) (data : List Nat)
    (opts : List RequestManyOpt) (reqOpts : requestManyOpts)
    (hopts : applyOpts defaultOpts opts = .ok reqOpts) (hsub : conn.subscribeErr = none) :
    (∀ (cases : List SelectCase) (out : Outcome),
      RequestMany conn subject data opts cases = some out →
      out.calls = [.Subscribe conn.inbox, .PublishRequest subject conn.inbox data,
          .Unsubscribe (some conn.inbox)] ∧
        out.calls.count (.Unsubscribe (some conn.inbox)) = 1 ∧
        out.calls.getLast? = some (.Unsubscribe (some conn.inbox))) ∧
    (∀ (tie : Nat → Bool) (arrivals : List Arrival),
      ∃ out t, RequestManyAt conn subject data opts tie arrivals = some (out, t) ∧
        out.calls.count (.Unsubscribe (some conn.inbox)) = 1 ∧
        out.calls.getLast? = some (.Unsubscribe (some conn.inbox))) := by
  have key : ∀ (cases : List SelectCase) (out : Outcome),
      RequestMany conn subject data opts cases = some out →
      out.calls = [.Subscribe conn.inbox, .PublishRequest subject conn.inbox data,
          .Unsubscribe (some conn.inbox)] := by
    intro cases out h
    unfold RequestMany at h
    simp only [hopts] at h
    cases hpub : conn.publishErr with
    | some e =>
      simp only [hpub, Option.some.injEq] at h
      subst h
      simp [callsOf, subOf, hsub]
    | none =>
      simp only [hpub, Option.map_eq_some'] at h
      obtain ⟨r, _, rfl⟩ := h
      simp [callsOf, subOf, hsub]
  constructor
  · intro cases out h
    have hc := key cases out h
    refine ⟨hc, ?_, ?_⟩ <;> rw [hc] <;> simp [List.count_cons]
  · intro tie arrivals
    obtain ⟨out, t, h⟩ := RequestManyAt_returns conn subject data opts tie arrivals
    have hc := key _ out (RequestManyAt_eq conn subject data opts tie arrivals out t h).1
    refine ⟨out, t, h, ?_, ?_⟩ <;> rw [hc] <;> simp [List.count_cons]

/-- C6, on each way out: the expected count reached, the interval timer, the deadline, a
failed `PublishRequest`, and a reply with status 503. -/
theorem RequestMany_unsubscribes_once_witness :
    (∀ cases ∈ [[SelectCase.recv ⟨"", [1]⟩], [.intervalTimer], [.after],
        [.recv ⟨"503", []⟩]],
      ∃ out, RequestMany ⟨"_INBOX.a", none, none⟩ "s" [] [WithRequestManyCount 1] cases
          = some out ∧
        out.calls.count (.Unsubscribe (some "_INBOX.a")) = 1) ∧
    (∃ out, RequestMany ⟨"_INBOX.a", none, some "nats: connection closed"⟩ "s" []
          [WithRequestManyCount 1] [.intervalTimer] = some out ∧
        out.calls.count (.Unsubscribe (some "_INBOX.a")) = 1) := by
  have ok := fun cases => (RequestMany_unsubscribes_once ⟨"_INBOX.a", none, none⟩ "s" []
    [WithRequestManyCount 1] ⟨DefaultRequestTimeout, 300 * Millisecond, 1⟩ rfl rfl).1 cases
  have failed := (RequestMany_unsubscribes_once
    ⟨"_INBOX.a", none, some "nats: connection closed"⟩ "s" []
    [WithRequestManyCount 1] ⟨DefaultRequestTimeout, 300 * Millisecond, 1⟩ rfl rfl).1
    [.intervalTimer]
  refine ⟨?_, ⟨_, rfl, (failed _ rfl).2.1⟩⟩
  intro cases hmem
  simp only [List.mem_cons, List.mem_singleton, List.not_mem_nil, or_false] at hmem
  rcases hmem with rfl | rfl | rfl | rfl
  · exact ⟨_, rfl, (ok [.recv ⟨"", [1]⟩] _ rfl).2.1⟩
  · exact ⟨_, rfl, (ok [.intervalTimer] _ rfl).2.1⟩
  · exact ⟨_, rfl, (ok [.after] _ rfl).2.1⟩
  · exact ⟨_, rfl, (ok [.recv ⟨"503", []⟩] _ rfl).2.1⟩

/-- C7 fails on the code: `conn.Subscribe` returns an error and `conn.PublishRequest`
succeeds.  The error is stored in `err` and never tested: the request is published, the
loop is entered, and when the interval timer fires (300ms after the start of the call)
the call returns an empty list and a nil error.  A failed `PublishRequest` is returned at
once (second part). -/
theorem RequestMany_subscribe_error_not_returned :
    RequestMany ⟨"_INBOX.a", some "nats: connection draining", none⟩
        "$SYS.REQ.SERVER.PING.VARZ" [] [] [.intervalTimer]
      = some ⟨[], none,
          [.Subscribe "_INBOX.a", .PublishRequest "$SYS.REQ.SERVER.PING.VARZ" "_INBOX.a" [],
            .Unsubscribe none], 1⟩ ∧
    RequestManyAt ⟨"_INBOX.a", some "nats: connection draining", none⟩
        "$SYS.REQ.SERVER.PING.VARZ" [] [] (fun _ => true) []
      = some (⟨[], none,
          [.Subscribe "_INBOX.a", .PublishRequest "$SYS.REQ.SERVER.PING.VARZ" "_INBOX.a" [],
            .Unsubscribe none], 1⟩, 300000000) ∧
    RequestMany ⟨"_INBOX.a", none, some "nats: connection closed"⟩
        "$SYS.REQ.SERVER.PING.VARZ" [] [] [.recv ⟨"", [1]⟩, .intervalTimer]
      = some ⟨[], some (.text "nats: connection closed"),
          [.Subscribe "_INBOX.a", .PublishRequest "$SYS.REQ.SERVER.PING.VARZ" "_INBOX.a" [],
            .Unsubscribe (some "_INBOX.a")], 0⟩ := by
  refine ⟨by decide, by decide, by decide⟩

/-- C9 as stated fails: with `count = 0`, which is not the sentinel `-1`, the test
`len(res) == reqOpts.count` is made only after an append and never holds, so the call
goes on collecting; here it returns two replies when the interval timer fires. -/
theorem RequestMany_count_zero_exceeded :
    (effectiveOpts [WithRequestManyCount 0]).count = 0 ∧
    (effectiveOpts [WithRequestManyCount 0]).count ≠ -1 ∧
    RequestMany ⟨"_INBOX.a", none, none⟩ "s" [] [WithRequestManyCount 0]
        [.recv ⟨"", [1]⟩, .recv ⟨"", [2]⟩, .intervalTimer]
      = some ⟨[⟨"", [1]⟩, ⟨"", [2]⟩], none, callsOf ⟨"_INBOX.a", none, none⟩ "s" [], 3⟩ ∧
    ¬ ((([⟨"", [1]⟩, ⟨"", [2]⟩] : List Msg).length : Int)
        ≤ (effectiveOpts [WithRequestManyCount 0]).count) := by
  refine ⟨rfl, by decide, by decide, by decide⟩

/-- C9, amended. With `count = n ≥ 1` in force, every list of replies returned by
`RequestMany` has length between 0 and `n`; in the timed environment the call always
returns, with such a list. -/
theorem RequestMany_replies_le_count (conn : Conn) (subject : String) (data : List Nat)
    (opts : List RequestManyOpt) (reqOpts : requestManyOpts) (n : Nat)
    (hopts : applyOpts defaultOpts opts = .ok reqOpts) (hcount : reqOpts.count = n)
    (hn : 1 ≤ n) :
    (∀ (cases : List SelectCase) (out : Outcome),
      RequestMany conn subject data opts cases = some out →
      0 ≤ out.replies.length ∧ out.replies.length ≤ n) ∧
    (∀ (tie : Nat → Bool) (arrivals : List Arrival),
      ∃ out t, RequestManyAt conn subject data opts tie arrivals = some (out, t) ∧
        0 ≤ out.replies.length ∧ out.replies.length ≤ n) := by
  have key : ∀ (cases : List SelectCase) (out : Outcome),
      RequestMany conn subject data opts cases = some out → out.replies.length ≤ n := by
    intro cases out h
    rcases RequestMany_cases conn subject data opts cases out h with
      ⟨_, h0, _⟩ | ⟨o, ho, _, _, hloop⟩
    · simp [h0]
    · rw [hopts] at ho
      cases ho
      exact selectLoop_length_le reqOpts subject conn.subscribeErr n hcount cases [] 0 _
        (by simpa using hn) hloop
  constructor
  · intro cases out h
    exact ⟨Nat.zero_le _, key cases out h⟩
  · intro tie arrivals
    obtain ⟨out, t, h⟩ := RequestManyAt_returns conn subject data opts tie arrivals
    exact ⟨out, t, h, Nat.zero_le _,
      key _ out (RequestManyAt_eq conn subject data opts tie arrivals out t h).1⟩

/-- C9 amended, at a concrete run: `count = 2` and three replies delivered. -/
theorem RequestMany_replies_le_count_witness :
    RequestMany ⟨"_INBOX.a", none, none⟩ "s" [] [WithRequestManyCount 2]
        [.recv ⟨"", [1]⟩, .recv ⟨"", [2]⟩, .recv ⟨"", [3]⟩, .intervalTimer]
      = some ⟨[⟨"", [1]⟩, ⟨"", [2]⟩], none, callsOf ⟨"_INBOX.a", none, none⟩ "s" [], 2⟩ ∧
    (0 ≤ ([⟨"", [1]⟩, ⟨"", [2]⟩] : List Msg).length ∧
      ([⟨"", [1]⟩, ⟨"", [2]⟩] : List Msg).length ≤ 2) :=
  ⟨by decide,
    (RequestMany_replies_le_count ⟨"_INBOX.a", none, none⟩ "s" [] [WithRequestManyCount 2]
      ⟨DefaultRequestTimeout, 300 * Millisecond, 2⟩ 2 rfl rfl (by decide)).1
      [.recv ⟨"", [1]⟩, .recv ⟨"", [2]⟩, .recv ⟨"", [3]⟩, .intervalTimer]
      ⟨[⟨"", [1]⟩, ⟨"", [2]⟩], none, callsOf ⟨"_INBOX.a", none, none⟩ "s" [], 2⟩
      (by decide)⟩

/-- C10. Whenever `RequestMany` returns a nil error, the list returned is exactly the
sequence of the replies it drained, in the order drained: a prefix of the replies
delivered, none of them with the `Status` header `"503"`.  In the timed environment the
call always returns, and with a nil error the list is a prefix of the replies delivered
to the inbox. -/
theorem RequestMany_returns_drained (conn : Conn) (subject : String) (data : List Nat)
    (opts : List RequestManyOpt) :
    (∀ (cases : List SelectCase) (out : Outcome),
      RequestMany conn subject data opts cases = some out → out.err = none →
      out.replies = drained cases out.rounds ∧ out.replies <+: recvMsgs cases ∧
        ∀ m ∈ out.replies, m.Status ≠ "503") ∧
    (∀ (tie : Nat → Bool) (arrivals : List Arrival),
      ∃ out t, RequestManyAt conn subject data opts tie arrivals = some (out, t) ∧
        (out.err = none →
          out.replies <+: arrivals.map Arrival.msg ∧ ∀ m ∈ out.replies, m.Status ≠ "503")) := by
  have key : ∀ (cases : List SelectCase) (out : Outcome),
      RequestMany conn subject data opts cases = some out → out.err = none →
      out.replies = drained cases out.rounds ∧ out.replies <+: recvMsgs cases ∧
        ∀ m ∈ out.replies, m.Status ≠ "503" := by
    intro cases out h herr
    rcases RequestMany_cases conn subject data opts cases out h with
      ⟨_, _, hne⟩ | ⟨o, _, _, _, hloop⟩
    · exact absurd herr hne
    · obtain ⟨j, _, _, hr, hcase⟩ := selectLoop_spec o subject conn.subscribeErr cases [] 0 _ hloop
      simp only [Nat.zero_add, List.nil_append] at hr hcase
      rcases hcase with ⟨_, h2, h3⟩ | ⟨h1, _, _⟩
      · rw [drained, hr, h2]
        exact ⟨rfl, recvMsgs_take_initial cases j, h3⟩
      · rw [herr] at h1
        cases h1
  constructor
  · exact key
  · intro tie arrivals
    obtain ⟨out, t, h⟩ := RequestManyAt_returns conn subject data opts tie arrivals
    refine ⟨out, t, h, fun herr => ?_⟩
    obtain ⟨_, h2, h3⟩ :=
      key _ out (RequestManyAt_eq conn subject data opts tie arrivals out t h).1 herr
    exact ⟨h2.trans (recvMsgs_timeline_initial conn opts tie arrivals), h3⟩

/-- C10, at a concrete run: the same reply delivered twice is returned twice, and the
reply delivered after the deadline case is not returned. -/
theorem RequestMany_returns_drained_witness :
    RequestMany ⟨"_INBOX.a", none, none⟩ "s" [] []
        [.recv ⟨"", [7]⟩, .recv ⟨"", [7]⟩, .after, .recv ⟨"", [8]⟩]
      = some ⟨[⟨"", [7]⟩, ⟨"", [7]⟩], none, callsOf ⟨"_INBOX.a", none, none⟩ "s" [], 3⟩ ∧
    ([⟨"", [7]⟩, ⟨"", [7]⟩]
        = drained [.recv ⟨"", [7]⟩, .recv ⟨"", [7]⟩, .after, .recv ⟨"", [8]⟩] 3 ∧
      [⟨"", [7]⟩, ⟨"", [7]⟩]
        <+: recvMsgs [.recv ⟨"", [7]⟩, .recv ⟨"", [7]⟩, .after, .recv ⟨"", [8]⟩] ∧
      ∀ m ∈ ([⟨"", [7]⟩, ⟨"", [7]⟩] : List Msg), m.Status ≠ "503") :=
  ⟨by decide,
    (RequestMany_returns_drained ⟨"_INBOX.a", none, none⟩ "s" [] []).1
      [.recv ⟨"", [7]⟩, .recv ⟨"", [7]⟩, .after, .recv ⟨"", [8]⟩]
      ⟨[⟨"", [7]⟩, ⟨"", [7]⟩], none, callsOf ⟨"_INBOX.a", none, none⟩ "s" [], 3⟩
      (by decide) rfl⟩

/-- C3 as stated fails: with the default options (`maxWait = 10s`, `maxInterval = 300ms`)
and no reply at all, the call returns the empty list and a nil error 300ms after it
started, when `intervalTimer`, running since its creation, fires; 10s have not elapsed. -/
theorem RequestMany_no_reply_default_options :
    (effectiveOpts []).maxWait = 10000000000 ∧
    (effectiveOpts []).maxInterval = 300000000 ∧
    RequestManyAt ⟨"_INBOX.a", none, none⟩ "s" [] [] (fun _ => true) []
      = some (⟨[], none, callsOf ⟨"_INBOX.a", none, none⟩ "s" [], 1⟩, 300000000) ∧
    ((300000000 : Nat) : Int) < (effectiveOpts []).maxWait := by
  refine ⟨rfl, rfl, by decide, by decide⟩

/-- C3, amended. With `maxWait > 0` and `maxInterval > 0` in force, `PublishRequest`
succeeding and no reply ever delivered, the call returns the empty list and a nil error
at the instant `min maxInterval maxWait` after its start, by the one `select` it
executes. -/
theorem RequestMany_no_reply (conn : Conn) (subject : String) (data : List Nat)
    (opts : List RequestManyOpt) (reqOpts : requestManyOpts) (tie : Nat → Bool)
    (hopts : applyOpts defaultOpts opts = .ok reqOpts) (hpub : conn.publishErr = none)
    (hW : 0 < reqOpts.maxWait) (hI : 0 < reqOpts.maxInterval) :
    ∃ t, RequestManyAt conn subject data opts tie []
        = some (⟨[], none, callsOf conn subject data, 1⟩, t) ∧
      (t : Int) = min reqOpts.maxInterval reqOpts.maxWait := by
  have hsel := selectLoop_timer reqOpts subject conn.subscribeErr [] 0 _ []
    (timerCase_snd reqOpts.maxInterval.toNat reqOpts.maxWait.toNat)
  have hW' : (0 : Int) < reqOpts.maxWait := hW
  have hI' : (0 : Int) < reqOpts.maxInterval := hI
  refine ⟨min reqOpts.maxInterval.toNat reqOpts.maxWait.toNat, ?_, ?_⟩
  · simp only [RequestManyAt, timeline, RequestMany, effectiveOpts, hopts, hpub, ite_self,
      schedule, List.map_cons, List.map_nil, Nat.zero_add, hsel, Option.map_some', instantOf,
      List.get?_cons_zero, Option.getD_some, timerCase_fst]
  · omega

/-- C3 amended, at the default options: the call returns after 300ms. -/
theorem RequestMany_no_reply_witness :
    ∃ t, RequestManyAt ⟨"_INBOX.a", none, none⟩ "s" [] [] (fun _ => true) []
        = some (⟨[], none, callsOf ⟨"_INBOX.a", none, none⟩ "s" [], 1⟩, t) ∧
      (t : Int) = min (300000000 : Int) 10000000000 :=
  RequestMany_no_reply ⟨"_INBOX.a", none, none⟩ "s" [] [] ⟨10000000000, 300000000, -1⟩
    (fun _ => true) rfl rfl (by decide) (by decide)

/-- C4 as stated fails, twice.  With `maxWait = 1s`, `maxInterval = 300ms`, `count = -1`
and a single reply delivered at 900ms, the call returns at 300ms with no reply
(`intervalTimer` runs from its creation).  With the same options and a reply every 200ms,
six of them, the call returns at 1500ms, later than `maxWait` after its start
(`time.After(reqOpts.maxWait)` is evaluated again by every `select`). -/
theorem RequestMany_deadline_not_absolute :
    RequestManyAt ⟨"_INBOX.a", none, none⟩ "s" []
        [WithRequestManyMaxWait Second, WithRequestManyMaxInterval (300 * Millisecond)]
        (fun _ => true) [⟨900000000, ⟨"", [1]⟩⟩]
      = some (⟨[], none, callsOf ⟨"_INBOX.a", none, none⟩ "s" [], 1⟩, 300000000) ∧
    RequestManyAt ⟨"_INBOX.a", none, none⟩ "s" []
        [WithRequestManyMaxWait Second, WithRequestManyMaxInterval (300 * Millisecond)]
        (fun _ => true)
        [⟨200000000, ⟨"", [1]⟩⟩, ⟨200000000, ⟨"", [2]⟩⟩, ⟨200000000, ⟨"", [3]⟩⟩,
          ⟨200000000, ⟨"", [4]⟩⟩, ⟨200000000, ⟨"", [5]⟩⟩, ⟨200000000, ⟨"", [6]⟩⟩]
      = some (⟨[⟨"", [1]⟩, ⟨"", [2]⟩, ⟨"", [3]⟩, ⟨"", [4]⟩, ⟨"", [5]⟩, ⟨"", [6]⟩], none,
          callsOf ⟨"_INBOX.a", none, none⟩ "s" [], 7⟩, 1500000000) ∧
    (effectiveOpts
      [WithRequestManyMaxWait Second, WithRequestManyMaxInterval (300 * Millisecond)]).maxWait
      = 1000000000 ∧
    ¬ ((1500000000 : Nat) ≤ 1000000000) := by
  refine ⟨by decide, by decide, rfl, by decide⟩

/-- C4, amended. For every finite timed sequence of replies the call returns, and a call
that has drained no reply returns no later than `maxWait` after it started.  With
`maxWait = 1s`, `maxInterval = 300ms`, `count = -1` and a single reply delivered at 900ms,
the call returns at 300ms with no reply. -/
theorem RequestMany_deadline_before_first_reply :
    (∀ (conn : Conn) (subject : String) (data : List Nat) (opts : List RequestManyOpt)
        (tie : Nat → Bool) (arrivals : List Arrival),
      ∃ out t, RequestManyAt conn subject data opts tie arrivals = some (out, t)) ∧
    (∀ (conn : Conn) (subject : String) (data : List Nat) (opts : List RequestManyOpt)
        (tie : Nat → Bool) (arrivals : List Arrival) (out : Outcome) (t : Nat),
      RequestManyAt conn subject data opts tie arrivals = some (out, t) →
      drained ((timeline conn opts tie arrivals).map Prod.snd) out.rounds = [] →
      t ≤ (effectiveOpts opts).maxWait.toNat) ∧
    (∀ (conn : Conn) (subject : String) (data : List Nat) (tie : Nat → Bool) (m : Msg),
      conn.publishErr = none →
      RequestManyAt conn subject data
          [WithRequestManyMaxWait Second, WithRequestManyMaxInterval (300 * Millisecond)]
          tie [⟨900000000, m⟩]
        = some (⟨[], none, callsOf conn subject data, 1⟩, 300000000)) := by
  refine ⟨RequestManyAt_returns, ?_, ?_⟩
  · intro conn subject data opts tie arrivals out t h hnone
    obtain ⟨hrun, rfl⟩ := RequestManyAt_eq conn subject data opts tie arrivals out t h
    rcases RequestMany_cases conn subject data opts _ out hrun with
      ⟨h0, _, _⟩ | ⟨o, _, _, _, hloop⟩
    · simp [h0, instantOf]
    · obtain ⟨j, hj1, hj2, hr, _⟩ := selectLoop_spec o subject conn.subscribeErr _ [] 0 _ hloop
      simp only [Nat.zero_add, List.length_map] at hr hj2
      rw [hr] at hnone ⊢
      have hle : instantOf (timeline conn opts tie arrivals) j
          ≤ lastDrainAt 0 ((timeline conn opts tie arrivals).take j)
            + (effectiveOpts opts).maxWait.toNat :=
        schedule_instant_le (effectiveOpts opts) tie
          (if conn.subscribeErr.isNone then arrivals else []) 0
          (effectiveOpts opts).maxInterval.toNat j hj1 hj2
      rw [drained, ← List.map_take] at hnone
      rw [lastDrainAt_of_no_recv _ 0 hnone, Nat.zero_add] at hle
      exact hle
  · intro conn subject data tie m hpub
    by_cases hsub : conn.subscribeErr.isNone = true <;>
      simp [RequestManyAt, timeline, RequestMany, effectiveOpts, applyOpts,
        WithRequestManyMaxWait, WithRequestManyMaxInterval, defaultOpts,
        DefaultRequestTimeout, Second, Millisecond, schedule, timerCase, selectLoop,
        instantOf, hsub, hpub]

/-- C4 amended, at a concrete run: `maxWait = 200ms` below `maxInterval = 300ms`, and a
reply delivered at 250ms; the deadline case is taken at 200ms and no reply is drained. -/
theorem RequestMany_deadline_before_first_reply_witness :
    RequestManyAt ⟨"_INBOX.a", none, none⟩ "s" []
        [WithRequestManyMaxWait (200 * Millisecond)] (fun _ => true)
        [⟨250000000, ⟨"", [1]⟩⟩]
      = some (⟨[], none, callsOf ⟨"_INBOX.a", none, none⟩ "s" [], 1⟩, 200000000) ∧
    200000000 ≤ (effectiveOpts [WithRequestManyMaxWait (200 * Millisecond)]).maxWait.toNat :=
  ⟨by decide,
    RequestMany_deadline_before_first_reply.2.1 ⟨"_INBOX.a", none, none⟩ "s" []
      [WithRequestManyMaxWait (200 * Millisecond)] (fun _ => true)
      [⟨250000000, ⟨"", [1]⟩⟩]
      ⟨[], none, callsOf ⟨"_INBOX.a", none, none⟩ "s" [], 1⟩ 200000000
      (by decide) (by decide)⟩

/-- C5 as stated fails at a gap of exactly `maxInterval`.  Default options
(`maxInterval = 300ms`, `maxWait = 10s`, `count = -1`), replies at 0ms and at 300ms, none
with status 503: the first silent gap of length `≥ maxInterval` runs from 0ms to 300ms and
ends long before `maxWait`.  The second reply is delivered at the very instant
`intervalTimer` expires; when the reply comes first the callback resets the timer, the
reply is appended, and the call returns both replies at 600ms, not the one reply received
before the gap at 300ms.  (When the timer comes first the call does return that one reply
at 300ms.) -/
theorem RequestMany_gap_of_exactly_maxInterval :
    (effectiveOpts []).count = -1 ∧
    (effectiveOpts []).maxInterval = ((300000000 : Nat) : Int) ∧
    RequestManyAt ⟨"_INBOX.a", none, none⟩ "s" [] [] (fun _ => true)
        [⟨0, ⟨"", [1]⟩⟩, ⟨300000000, ⟨"", [2]⟩⟩]
      = some (⟨[⟨"", [1]⟩, ⟨"", [2]⟩], none, callsOf ⟨"_INBOX.a", none, none⟩ "s" [], 3⟩,
          600000000) ∧
    RequestManyAt ⟨"_INBOX.a", none, none⟩ "s" [] [] (fun _ => true)
        [⟨0, ⟨"", [1]⟩⟩, ⟨300000000, ⟨"", [2]⟩⟩]
      ≠ some (⟨[⟨"", [1]⟩], none, callsOf ⟨"_INBOX.a", none, none⟩ "s" [], 2⟩,
          300000000) ∧
    RequestManyAt ⟨"_INBOX.a", none, none⟩ "s" [] [] (fun _ => false)
        [⟨0, ⟨"", [1]⟩⟩, ⟨300000000, ⟨"", [2]⟩⟩]
      = some (⟨[⟨"", [1]⟩], none, callsOf ⟨"_INBOX.a", none, none⟩ "s" [], 2⟩,
          300000000) := by
  refine ⟨rfl, rfl, by decide, by decide, by decide⟩

/-- C5, amended. With `count = -1` in force, `Subscribe` and `PublishRequest` succeeding:
let the replies `pre` come each less than `maxInterval` after the one before (after the
start of the call for the first), none of them with status 503, and let them be followed
by a silent gap longer than `maxInterval`, that is by nothing, or by a reply that comes
more than `maxInterval` after the last of `pre` (a `maxInterval` that is not positive
counts as 0).  If the first `maxInterval` of that gap ends before `maxWait` has elapsed
since the start of the call, then, however ties are resolved, the call returns at that
instant, `maxInterval` after the last reply of `pre`, with a nil error and exactly the
replies of `pre` in order. -/
theorem RequestMany_stops_at_first_gap (conn : Conn) (subject : String) (data : List Nat)
    (opts : List RequestManyOpt) (reqOpts : requestManyOpts) (tie : Nat → Bool)
    (pre post : List Arrival)
    (hopts : applyOpts defaultOpts opts = .ok reqOpts) (hcount : reqOpts.count = -1)
    (hsub : conn.subscribeErr = none) (hpub : conn.publishErr = none)
    (h503 : ∀ a ∈ pre, a.msg.Status ≠ "503")
    (hpre : ∀ a ∈ pre, (a.delay : Int) < reqOpts.maxInterval)
    (hgap : ∀ a rest, post = a :: rest → reqOpts.maxInterval.toNat < a.delay)
    (hend : (((pre.map Arrival.delay).sum : Nat) : Int) + reqOpts.maxInterval
      < reqOpts.maxWait) :
    RequestManyAt conn subject data opts tie (pre ++ post)
      = some (⟨pre.map Arrival.msg, none, callsOf conn subject data, pre.length + 1⟩,
          (pre.map Arrival.delay).sum + reqOpts.maxInterval.toNat) := by
  have hend' : (((pre.map Arrival.delay).sum : Nat) : Int) + (reqOpts.maxInterval : Int)
      < (reqOpts.maxWait : Int) := hend
  have hIW : reqOpts.maxInterval.toNat ≤ reqOpts.maxWait.toNat := by omega
  have hsched : timeline conn opts tie (pre ++ post)
      = stamp 0 pre ++
        [((pre.map Arrival.delay).sum + reqOpts.maxInterval.toNat, .intervalTimer)] := by
    have h1 := schedule_stamp reqOpts tie post pre 0 (fun a ha => by
      have : (a.delay : Int) < (reqOpts.maxInterval : Int) := hpre a ha
      constructor <;> omega)
    have h2 := schedule_gap reqOpts tie (0 + (pre.map Arrival.delay).sum) post hIW
      (fun a rest hp => by
        have g := hgap a rest hp
        exact ⟨Nat.le_of_lt g, fun heq => absurd heq (Nat.ne_of_gt g)⟩)
    simp only [Nat.zero_add] at h1 h2
    simp only [timeline, effectiveOpts, hopts, hsub, Option.isNone_none, if_true]
    rw [h1, h2]
  have hloop : selectLoop reqOpts subject conn.subscribeErr [] 0
      ((pre.map Arrival.msg).map SelectCase.recv ++ [SelectCase.intervalTimer])
      = some ⟨pre.map Arrival.msg, none, pre.length + 1⟩ := by
    rw [selectLoop_recv_append reqOpts subject conn.subscribeErr (pre.map Arrival.msg) [] 0 _
      (by simpa using h503) (by
        intro j _ _
        rw [hcount]
        omega)]
    simp [selectLoop]
  unfold RequestManyAt
  rw [hsched]
  simp only [RequestMany, hopts, hpub, List.map_append, stamp_map_snd, List.map_cons,
    List.map_nil, hloop, Option.map_some', instantOf]
  rw [List.get?_eq_getElem?, List.getElem?_append_right (by simp [stamp_length])]
  simp [stamp_length]

/-- C5 amended, at two runs with the default options (`maxInterval = 300ms`,
`maxWait = 10s`, `count = -1`).  Replies at 0ms and 50ms followed by a reply at 400ms,
350ms after the second: the call returns at 350ms with the first two replies.  The run of
the claim, replies at 0ms and 50ms and then silence: the call returns at 350ms with the
two replies. -/
theorem RequestMany_stops_at_first_gap_witness :
    RequestManyAt ⟨"_INBOX.a", none, none⟩ "s" [] [] (fun _ => true)
        ([⟨0, ⟨"", [1]⟩⟩, ⟨50000000, ⟨"", [2]⟩⟩] ++ [⟨350000000, ⟨"", [3]⟩⟩])
      = some (⟨[⟨"", [1]⟩, ⟨"", [2]⟩], none, callsOf ⟨"_INBOX.a", none, none⟩ "s" [], 3⟩,
          350000000) ∧
    RequestManyAt ⟨"_INBOX.a", none, none⟩ "s" [] [] (fun _ => true)
        ([⟨0, ⟨"", [1]⟩⟩, ⟨50000000, ⟨"", [2]⟩⟩] ++ [])
      = some (⟨[⟨"", [1]⟩, ⟨"", [2]⟩], none, callsOf ⟨"_INBOX.a", none, none⟩ "s" [], 3⟩,
          350000000) :=
  ⟨RequestMany_stops_at_first_gap ⟨"_INBOX.a", none, none⟩ "s" [] []
      ⟨10000000000, 300000000, -1⟩ (fun _ => true)
      [⟨0, ⟨"", [1]⟩⟩, ⟨50000000, ⟨"", [2]⟩⟩] [⟨350000000, ⟨"", [3]⟩⟩] rfl rfl rfl rfl
      (by decide) (by decide)
      (fun a rest h => by
        cases h
        decide)
      (by decide),
    RequestMany_stops_at_first_gap ⟨"_INBOX.a", none, none⟩ "s" [] []
      ⟨10000000000, 300000000, -1⟩ (fun _ => true)
      [⟨0, ⟨"", [1]⟩⟩, ⟨50000000, ⟨"", [2]⟩⟩] [] rfl rfl rfl rfl
      (by decide) (by decide) (fun _ _ h => nomatch h) (by decide)⟩

end Sys
